import Mathlib

set_option maxHeartbeats 1000000

/-- A JavaScript-like runtime value, as used by the DatasaurLocal data model.
Rows, schema entries, metadata and cell values are all such values.
`obj own proto` is an ordinary object: `own` is the insertion-ordered list of
own enumerable data properties, `proto` is the prototype (a plain object
literal is modelled with prototype `vnull`, since `Object.prototype` carries
none of the properties this component reads).
`arr elems subrowsFlag` is an array; the only extra property the source ever
puts on an array is `subrows = true` (in the sub-row branch of `getValue`),
modelled by the boolean flag. Integers stand in for JS numbers (no claim
involves fractional values or NaN). -/
inductive JSVal where
  | undefined : JSVal
  | vnull : JSVal
  | bool : Bool → JSVal
  | num : Int → JSVal
  | str : String → JSVal
  | arr : List JSVal → Bool → JSVal
  | obj : List (String × JSVal) → JSVal → JSVal

/-- JS truthiness of a value (empty string and 0 are falsy, every object and
array is truthy). -/
def truthy : JSVal → Bool
  | .undefined => false
  | .vnull => false
  | .bool b => b
  | .num n => n ≠ 0
  | .str s => ¬ s.isEmpty
  | .arr _ _ => true
  | .obj _ _ => true

/-- First own property with the given key, scanning in insertion order. -/
def lookupOwn : List (String × JSVal) → String → Option JSVal
  | [], _ => none
  | (k', v') :: rest, k => if k' = k then some v' else lookupOwn rest k

/-- Write an own property: overwrite in place when the key exists, else
append (JS insertion-order semantics). -/
def setOwn : List (String × JSVal) → String → JSVal → List (String × JSVal)
  | [], k, v => [(k, v)]
  | (k', v') :: rest, k, v =>
      if k' = k then (k, v) :: rest else (k', v') :: setOwn rest k v

/-- Remove an own property (the `delete` operator). -/
def deleteOwn : List (String × JSVal) → String → List (String × JSVal)
  | [], _ => []
  | (k', v') :: rest, k =>
      if k' = k then deleteOwn rest k else (k', v') :: deleteOwn rest k

/-- Property read `v[k]` on a value already known to be coercible (the source
always guards with a truthiness check before reading, except where
`getFieldE` is used). Objects look up own properties, then the prototype
chain; primitives yield `undefined` for the property names this component
reads; an array yields its `subrows` tag when set. -/
def jsGet : JSVal → String → JSVal
  | .obj own proto, k =>
      match lookupOwn own k with
      | some v => v
      | none => jsGet proto k
  | .arr _ s, k => if k = "subrows" ∧ s then .bool true else .undefined
  | _, _ => .undefined

/-- Property read `v[k]` where `v` may be `undefined` or `null`, in which
case JS throws a TypeError (this is how `this.data[y + 1][key]` in the
sub-row branch of `getValue` can fail). -/
def getFieldE (v : JSVal) (k : String) : Except String JSVal :=
  match v with
  | .undefined => .error "TypeError"
  | .vnull => .error "TypeError"
  | _ => .ok (jsGet v k)

/-- Property write `v[k] = x` under strict mode: writing on `undefined`,
`null` or another primitive throws a TypeError; on an object it shadows or
overwrites the own property; on an array only the `subrows` tag is ever
written by this component. -/
def setFieldE : JSVal → String → JSVal → Except String JSVal
  | .obj own proto, k, v => .ok (.obj (setOwn own k v) proto)
  | .arr es s, k, v =>
      .ok (if k = "subrows" then .arr es (truthy v) else .arr es s)
  | _, _, _ => .error "TypeError"

/-- `delete v[k]`: removes an own property of an object; on any other value
this is a no-op (deleting a missing property of a boxed primitive succeeds
without effect). -/
def deleteField : JSVal → String → JSVal
  | .obj own proto, k => .obj (deleteOwn own k) proto
  | v, _ => v

/-- ToPropertyKey / ToString coercion for values used as property keys. In
this component keys are column names produced by `getColumnName`; the array
and object cases are coarse stand-ins never reached by the claims. -/
def propKey : JSVal → String
  | .str s => s
  | .undefined => "undefined"
  | .vnull => "null"
  | .bool b => if b then "true" else "false"
  | .num n => toString n
  | .arr _ _ => ""
  | .obj _ _ => "[object Object]"

/-- `Object.keys`: own enumerable property names in insertion order for an
object; index strings for arrays and strings; empty for other primitives. -/
def jsKeys : JSVal → List String
  | .obj own _ => own.map Prod.fst
  | .arr es _ => (List.range es.length).map toString
  | .str s => (List.range s.length).map toString
  | _ => []

/-- `Object.create(proto)`: a fresh empty object whose prototype is `proto`;
throws a TypeError when `proto` is neither an object nor `null`. -/
def objCreate : JSVal → Except String JSVal
  | .obj own proto => .ok (.obj [] (.obj own proto))
  | .arr es s => .ok (.obj [] (.arr es s))
  | .vnull => .ok (.obj [] .vnull)
  | _ => .error "TypeError"

/-- A column reference as accepted by the cell accessors: either a numeric
column index or a column name string (the source inspects `typeof x`). -/
inductive ColRef where
  | idx : Nat → ColRef
  | name : String → ColRef
deriving DecidableEq

/-- The state of a DatasaurLocal instance: the `schema` array, the `data`
array of rows, the `needsShapeChange` flag used by the sub-row branch, a
count of `setTimeout(scheduleShapeChange)` registrations made, and the log
of event names passed to the base class's `dispatchEvent`. -/
structure DS where
  schema : List JSVal
  data : List JSVal
  needsShapeChange : Bool := false
  scheduled : Nat := 0
  events : List String := []

/-- The state `initialize` leaves behind: empty schema and data. -/
def DS.init : DS := { schema := [], data := [] }

/-- `getColumnName(x)` from the source:
`(typeof x)[0] === 'n' ? this.schema[x].name : x`.
For a numeric reference the schema entry is read first (`this.schema[x]` is
`undefined` out of bounds, so `.name` throws), then its `name` property; a
string reference is returned as is. -/
def getColumnName (schema : List JSVal) : ColRef → Except String JSVal
  | .idx n =>
      match schema[n]? with
      | none => .error "TypeError"
      | some e => getFieldE e "name"
  | .name s => .ok (.str s)

/-- `getSchema()` returns the schema array. -/
def getSchema (st : DS) : List JSVal := st.schema

/-- `getRowCount()` returns `this.data.length`. -/
def getRowCount (st : DS) : Nat := st.data.length

/-- `getColumnCount()` returns `this.schema.length`. -/
def getColumnCount (st : DS) : Nat := st.schema.length

/-- `getRow(y)` is a direct positional lookup; out of range yields
`undefined`. -/
def getRow (st : DS) (y : Nat) : JSVal := st.data.getD y .undefined

/-- `setSchema(newSchema)`: when `newSchema` is empty, find the first truthy
row of the data and replace `newSchema` by `Object.keys` of that row (an
array of plain strings); adopt the result and dispatch
`fin-hypergrid-schema-changed`. -/
def setSchema (st : DS) (newSchema : List JSVal) : DS :=
  let s :=
    if newSchema.isEmpty then
      match st.data.find? truthy with
      | some dataRow => (jsKeys dataRow).map JSVal.str
      | none => newSchema
    else newSchema
  { st with schema := s, events := st.events ++ ["fin-hypergrid-schema-changed"] }

/-- `setData(data, schema)`: `this.data = data || []`; when `schema` is a
truthy argument (an empty array included) delegate to `setSchema`; else when
the data is non-empty and no schema is held, derive one via `setSchema([])`. -/
def setData (st : DS) (data : Option (List JSVal)) (schema : Option (List JSVal)) : DS :=
  let st1 := { st with data := data.getD [] }
  match schema with
  | some s => setSchema st1 s
  | none =>
      if st1.data.length ≠ 0 ∧ st1.schema.length = 0 then setSchema st1 []
      else st1

/-- JS array element write `this.data[y] = v`: in range it overwrites; past
the end it extends the array to length `y + 1`, the gap reading back as
`undefined`. -/
def arrSet (l : List JSVal) (y : Nat) (v : JSVal) : List JSVal :=
  if y < l.length then l.set y v
  else l ++ List.replicate (y - l.length) .undefined ++ [v]

/-- `setRow(y, dataRow)`: `this.data[y] = dataRow || undefined`; no event is
dispatched. -/
def setRow (st : DS) (y : Nat) (dataRow : JSVal) : DS :=
  { st with data := arrSet st.data y (if truthy dataRow then dataRow else .undefined) }

/-- `addRow(dataRow, y)`: append when `y` is omitted or at least the row
count, else splice in at `y`; always dispatch
`fin-hypergrid-data-shape-changed`. -/
def addRow (st : DS) (dataRow : JSVal) (y : Option Nat) : DS :=
  let d :=
    match y with
    | none => st.data ++ [dataRow]
    | some y =>
        if st.data.length ≤ y then st.data ++ [dataRow]
        else st.data.take y ++ dataRow :: st.data.drop y
  { st with data := d, events := st.events ++ ["fin-hypergrid-data-shape-changed"] }

/-- `delRow(y, rowCount)`: `this.data.splice(y, rowCount === undefined ? 1 :
rowCount)`; returns the removed rows and dispatches
`fin-hypergrid-data-shape-changed` exactly when one or more rows came out. -/
def delRow (st : DS) (y : Nat) (rowCount : Option Nat) : List JSVal × DS :=
  let c := rowCount.getD 1
  let rows := (st.data.drop y).take c
  let d := st.data.take y ++ st.data.drop (y + c)
  let evs :=
    if rows.length ≠ 0 then st.events ++ ["fin-hypergrid-data-shape-changed"]
    else st.events
  (rows, { st with data := d, events := evs })

/-- `getRowMetadata(y, prototype)`:
`dataRow && (dataRow.__META || (prototype !== undefined && (dataRow.__META =
Object.create(prototype))))`. A falsy row is returned as is; a truthy
`__META` is returned; otherwise with a prototype argument a fresh object is
created, installed as `__META` and returned, and with none the result is the
boolean `false`. -/
def getRowMetadata (st : DS) (y : Nat) (prototype : Option JSVal) :
    Except String JSVal × DS :=
  let dataRow := st.data.getD y .undefined
  if truthy dataRow then
    let meta := jsGet dataRow "__META"
    if truthy meta then (.ok meta, st)
    else
      match prototype with
      | none => (.ok (.bool false), st)
      | some p =>
          match objCreate p with
          | .error e => (.error e, st)
          | .ok fresh =>
              match setFieldE dataRow "__META" fresh with
              | .error e => (.error e, st)
              | .ok row' => (.ok fresh, { st with data := st.data.set y row' })
  else (.ok dataRow, st)

/-- `setRowMetadata(y, metadata)`: on a truthy row, a truthy `metadata` is
assigned to `dataRow.__META` and a falsy one deletes the attachment; the
returned value is `!!dataRow`. -/
def setRowMetadata (st : DS) (y : Nat) (metadata : JSVal) :
    Except String JSVal × DS :=
  let dataRow := st.data.getD y .undefined
  if truthy dataRow then
    if truthy metadata then
      match setFieldE dataRow "__META" metadata with
      | .error e => (.error e, st)
      | .ok row' => (.ok (.bool true), { st with data := st.data.set y row' })
    else
      (.ok (.bool true), { st with data := st.data.set y (deleteField dataRow "__META") })
  else (.ok (.bool false), st)

/-- The index adjustment of the non-trigger branch of `getValue`:
`if (y>114) y+=2; if (y>116) y+=2;` with the second test seeing the already
incremented value. -/
def shiftY (y : Nat) : Nat :=
  let y1 := if 114 < y then y + 2 else y
  if 116 < y1 then y1 + 2 else y1

/-- The hard-coded sub-row trigger of `getValue`:
`y===116 || y===114 && x===2` (the strict comparison `x===2` matches only the
numeric reference 2). -/
def isTrigger (x : ColRef) (y : Nat) : Bool :=
  y = 116 ∨ (y = 114 ∧ x = ColRef.idx 2)

/-- The metadata mutation of the sub-row branch:
`((row.__META || (row.__META = {})).__ROW || (row.__META.__ROW = {})).height = 46`.
Composed functionally: take the existing truthy `__META` (else a fresh empty
object), its existing truthy `__ROW` (else a fresh empty object), set
`height` to 46 and write the chain back into the row; each write can throw
on a primitive exactly as strict-mode JS does. -/
def metaHeightUpdate (row : JSVal) : Except String JSVal :=
  let meta0 := jsGet row "__META"
  let meta := if truthy meta0 then meta0 else JSVal.obj [] .vnull
  let rp0 := jsGet meta "__ROW"
  let rowProps := if truthy rp0 then rp0 else JSVal.obj [] .vnull
  match setFieldE rowProps "height" (.num 46) with
  | .error e => .error e
  | .ok rowProps' =>
      match setFieldE meta "__ROW" rowProps' with
      | .error e => .error e
      | .ok meta' => setFieldE row "__META" meta'

/-- `getValue(x, y)` translated branch for branch. The result is the value
returned (or the TypeError thrown) together with the state after the call:
the sub-row branch mutates the triggering row's metadata and, when the
`needsShapeChange` flag is still clear, sets it and registers one
`setTimeout(scheduleShapeChange)`; every other exit leaves the state
untouched. -/
def getValue (st : DS) (x : ColRef) (y : Nat) : Except String JSVal × DS :=
  if isTrigger x y then
    let row := st.data.getD y .undefined
    if truthy row then
      match getColumnName st.schema x with
      | .error e => (.error e, st)
      | .ok keyV =>
        let key := propKey keyV
        match getFieldE (st.data.getD (y + 1) .undefined) key with
        | .error e => (.error e, st)
        | .ok v1 =>
          match getFieldE (st.data.getD (y + 2) .undefined) key with
          | .error e => (.error e, st)
          | .ok v2 =>
            let value := JSVal.arr [jsGet row key, v1, v2] true
            match metaHeightUpdate row with
            | .error e => (.error e, st)
            | .ok row' =>
              let st1 := { st with data := st.data.set y row' }
              if st1.needsShapeChange then (.ok value, st1)
              else
                (.ok value,
                 { st1 with needsShapeChange := true, scheduled := st1.scheduled + 1 })
    else (.ok .vnull, st)
  else
    let row := st.data.getD (shiftY y) .undefined
    if truthy row then
      match getColumnName st.schema x with
      | .error e => (.error e, st)
      | .ok keyV => (.ok (jsGet row (propKey keyV)), st)
    else (.ok .vnull, st)

/-- `setValue(x, y, value)`:
`this.data[y][getColumnName.call(this, x)] = value`; resolving the column
name can throw on a bad numeric reference, and the assignment throws when
the row is missing (or a primitive). -/
def setValue (st : DS) (x : ColRef) (y : Nat) (v : JSVal) : Except String DS :=
  match getColumnName st.schema x with
  | .error e => .error e
  | .ok keyV =>
      match setFieldE (st.data.getD y .undefined) (propKey keyV) v with
      | .error e => .error e
      | .ok row' => .ok { st with data := st.data.set y row' }

/-- `scheduleShapeChange`, the deferred callback: clear the flag and
dispatch `data-shape-changed`. -/
def scheduleShapeChange (st : DS) : DS :=
  { st with needsShapeChange := false, events := st.events ++ ["data-shape-changed"] }

/-- One synchronous render turn: a sequence of `getValue` calls, each
threading the state (return values discarded; no scheduled callback runs
until the turn ends). -/
def renderPass (st : DS) : List (ColRef × Nat) → DS
  | [] => st
  | (x, y) :: rest => renderPass (getValue st x y).2 rest

/-- A normalized column schema entry `{name: s}` (a plain object literal). -/
def objName (s : String) : JSVal := .obj [("name", .str s)] .vnull

/-- A three-column sample row `{a: 1, b: 2, c: 3}`. -/
def rowABC : JSVal := .obj [("a", .num 1), ("b", .num 2), ("c", .num 3)] .vnull

/-- A one-column model with 116 rows, enough for the index shift of
`getValue` to fall off the end of the data. -/
def st116 : DS :=
  { schema := [objName "a"], data := List.replicate 116 (.obj [("a", .num 1)] .vnull) }

/-- A three-column model with 117 rows, enough for the sub-row branch at row
114 to read rows 115 and 116. -/
def st117 : DS :=
  { schema := [objName "a", objName "b", objName "c"], data := List.replicate 117 rowABC }

/-- A one-column, one-row model. -/
def stOne : DS :=
  { schema := [objName "a"], data := [.obj [("a", .num 1)] .vnull] }

/-- A schema-less model holding one row `{a: 1, b: 2}`. -/
def stAB : DS :=
  { schema := [], data := [.obj [("a", .num 1), ("b", .num 2)] .vnull] }

/-! Helper lemmas about the embedding. -/

theorem shiftY_ge (y : Nat) : y ≤ shiftY y := by
  simp only [shiftY]
  split_ifs <;> omega

theorem lookupOwn_setOwn_self (l : List (String × JSVal)) (k : String) (v : JSVal) :
    lookupOwn (setOwn l k v) k = some v := by
  induction l with
  | nil => simp [setOwn, lookupOwn]
  | cons kv rest ih =>
      obtain ⟨k', v'⟩ := kv
      by_cases h : k' = k
      · simp [setOwn, h, lookupOwn]
      · simp [setOwn, h, lookupOwn, ih]

theorem lookupOwn_deleteOwn_self (l : List (String × JSVal)) (k : String) :
    lookupOwn (deleteOwn l k) k = none := by
  induction l with
  | nil => simp [deleteOwn, lookupOwn]
  | cons kv rest ih =>
      obtain ⟨k', v'⟩ := kv
      by_cases h : k' = k
      · simp [deleteOwn, h, ih]
      · simp [deleteOwn, h, lookupOwn, ih]

theorem jsGet_setOwn (f : List (String × JSVal)) (p : JSVal) (k : String) (v : JSVal) :
    jsGet (.obj (setOwn f k v) p) k = v := by
  simp [jsGet, lookupOwn_setOwn_self]

/-- Claim C2 counterexample: `getValue` is not total — with a one-entry
schema and an existing row 0, the numeric column reference 1 resolves
`this.schema[1].name` on `undefined` and throws a TypeError. -/
theorem c2_total_cex : (getValue stOne (.idx 1) 0).1 = .error "TypeError" := by rfl

/-- Claim C2 (amended): for every row index at or past the row count,
`getValue` returns `null` without throwing and leaves the state unchanged
(the totality half of the claim is false, see the counterexample). -/
theorem c2_null_out_of_range (st : DS) (x : ColRef) (y : Nat)
    (h : getRowCount st ≤ y) : getValue st x y = (.ok .vnull, st) := by
  have hy : st.data.getD y .undefined = .undefined := by
    rw [List.getD_eq_getElem?_getD, List.getElem?_eq_none h]; rfl
  have hy2 : st.data.getD (shiftY y) .undefined = .undefined := by
    rw [List.getD_eq_getElem?_getD,
      List.getElem?_eq_none (le_trans h (shiftY_ge y))]; rfl
  unfold getValue
  split
  · rw [hy]; rfl
  · rw [hy2]; rfl

/-- Witness for C2 at a concrete input: one row, read at index 5. -/
theorem c2_null_out_of_range_witness :
    getRowCount stOne ≤ 5 ∧ getValue stOne (.name "a") 5 = (.ok .vnull, stOne) :=
  ⟨by decide, c2_null_out_of_range stOne (.name "a") 5 (by decide)⟩

/-- Claim C3 counterexample: inference on data `[{a:1,b:2}]` stores the key
strings themselves (`Object.keys`), not `{name: key}` wrapper objects. -/
theorem c3_inference_cex :
    (setSchema stAB []).schema ≠ [objName "a", objName "b"] := by
  have e : (setSchema stAB []).schema = [JSVal.str "a", JSVal.str "b"] := rfl
  rw [e]
  intro h
  injection h with h1 _
  exact JSVal.noConfusion h1

/-- Claim C3 (amended): `setSchema([])` with a first truthy data row derives
the schema as the plain key strings of that row, in insertion order. -/
theorem c3_inference_amended (st : DS) (r : JSVal)
    (h : st.data.find? truthy = some r) :
    (setSchema st []).schema = (jsKeys r).map JSVal.str := by
  simp [setSchema, h]

/-- Witness for C3 at a concrete input: data `[{a:1,b:2}]`. -/
theorem c3_inference_amended_witness :
    stAB.data.find? truthy = some (.obj [("a", .num 1), ("b", .num 2)] .vnull) ∧
    (setSchema stAB []).schema =
      (jsKeys (.obj [("a", .num 1), ("b", .num 2)] .vnull)).map JSVal.str :=
  ⟨rfl, c3_inference_amended stAB _ rfl⟩

/-- Claim C5 counterexample: `setData(R, S)` with the empty schema `S = []`
(unique names hold vacuously) and a non-empty `R` does not return `S` from
`getSchema`: the truthy empty array triggers `setSchema([])`, which infers
`['a']` from the data. -/
theorem c5_setData_cex :
    getSchema (setData DS.init (some [.obj [("a", .num 1)] .vnull]) (some [])) ≠ [] := by
  have e : getSchema (setData DS.init (some [.obj [("a", .num 1)] .vnull]) (some [])) =
      [JSVal.str "a"] := rfl
  rw [e]
  exact fun h => List.noConfusion h

/-- Claim C5 (amended): for every non-empty schema `S`, `setData(R, S)`
establishes exactly `S` and exactly the rows `R`. -/
theorem c5_setData_amended (st : DS) (R S : List JSVal) (hS : S ≠ []) :
    getSchema (setData st (some R) (some S)) = S ∧
    getRowCount (setData st (some R) (some S)) = R.length := by
  have hSe : S.isEmpty = false := by
    cases S with
    | nil => exact absurd rfl hS
    | cons a t => rfl
  constructor
  · simp [setData, setSchema, getSchema, hSe]
  · simp [setData, setSchema, getRowCount, hSe]

/-- Witness for C5 at a concrete input: one row, one schema entry. -/
theorem c5_setData_amended_witness :
    ([objName "a"] : List JSVal) ≠ [] ∧
    (getSchema (setData stOne (some [rowABC]) (some [objName "a"])) = [objName "a"] ∧
     getRowCount (setData stOne (some [rowABC]) (some [objName "a"])) = 1) :=
  ⟨List.cons_ne_nil _ _,
   c5_setData_amended stOne [rowABC] [objName "a"] (List.cons_ne_nil _ _)⟩

/-- Claim C8 counterexample: `setRow` past the end is not count-preserving —
on an empty model, `setRow(0, row)` grows the data to length 1. -/
theorem c8_setRow_cex :
    getRowCount (setRow DS.init 0 rowABC) ≠ getRowCount DS.init := by decide

/-- Claim C8 (amended): for an in-range index, `setRow` overwrites the slot
in place (a falsy row becoming the `undefined` blank sentinel), preserves
the row count and every other slot, and dispatches no event. -/
theorem c8_setRow_amended (st : DS) (y : Nat) (r : JSVal)
    (h : y < getRowCount st) :
    getRowCount (setRow st y r) = getRowCount st ∧
    (setRow st y r).data[y]? = some (if truthy r then r else .undefined) ∧
    (∀ i, i ≠ y → (setRow st y r).data[i]? = st.data[i]?) ∧
    (setRow st y r).events = st.events ∧
    (setRow st y r).schema = st.schema ∧
    (setRow st y r).scheduled = st.scheduled ∧
    (setRow st y r).needsShapeChange = st.needsShapeChange := by
  have harr : arrSet st.data y (if truthy r then r else .undefined) =
      st.data.set y (if truthy r then r else .undefined) := by
    have h' : y < st.data.length := h
    unfold arrSet
    rw [if_pos h']
  refine ⟨?_, ?_, ?_, rfl, rfl, rfl, rfl⟩
  · simp [setRow, getRowCount, harr]
  · simp [setRow, harr, List.getElem?_set_self h]
  · intro i hi
    simp [setRow, harr, List.getElem?_set_ne (Ne.symm hi)]

/-- Witness for C8 at a concrete input: overwrite row 0 of a one-row model. -/
theorem c8_setRow_amended_witness :
    0 < getRowCount stOne ∧
    (getRowCount (setRow stOne 0 rowABC) = getRowCount stOne ∧
     (setRow stOne 0 rowABC).data[0]? = some (if truthy rowABC then rowABC else .undefined) ∧
     (∀ i, i ≠ 0 → (setRow stOne 0 rowABC).data[i]? = stOne.data[i]?) ∧
     (setRow stOne 0 rowABC).events = stOne.events ∧
     (setRow stOne 0 rowABC).schema = stOne.schema ∧
     (setRow stOne 0 rowABC).scheduled = stOne.scheduled ∧
     (setRow stOne 0 rowABC).needsShapeChange = stOne.needsShapeChange) :=
  ⟨by decide, c8_setRow_amended stOne 0 rowABC (by decide)⟩

/-- Claim C1 counterexample: with 116 rows, writing cell ('a', 115) and
reading it back yields `null`, because the read is shifted to index 119 by
the sub-row offset arithmetic while the write went to index 115. -/
theorem c1_roundtrip_cex :
    (setValue st116 (.name "a") 115 (.num 7)).bind
      (fun st' => (getValue st' (.name "a") 115).1) ≠ .ok (.num 7) := by
  have e : (setValue st116 (.name "a") 115 (.num 7)).bind
      (fun st' => (getValue st' (.name "a") 115).1) = .ok JSVal.vnull := rfl
  rw [e]
  intro h
  injection h with h1
  exact JSVal.noConfusion h1

/-- Claim C1 (amended): the write/read round-trip holds for every valid
column reference and existing object row at an index `y ≤ 114`, excluding
the sub-row trigger position (row 114 with numeric column 2); at and beyond
row 115 (and at the trigger) `getValue` reads from a different position than
`setValue` wrote. -/
theorem c1_roundtrip_amended (st : DS) (x : ColRef) (y : Nat) (v : JSVal)
    (f : List (String × JSVal)) (p : JSVal) (keyV : JSVal)
    (hcol : getColumnName st.schema x = .ok keyV)
    (hrow : st.data[y]? = some (.obj f p))
    (hy : y ≤ 114)
    (hx : ¬(y = 114 ∧ x = ColRef.idx 2)) :
    ∃ st', setValue st x y v = .ok st' ∧ getValue st' x y = (.ok v, st') := by
  have hlen : y < st.data.length := by
    by_contra hc
    push_neg at hc
    rw [List.getElem?_eq_none hc] at hrow
    exact Option.noConfusion hrow
  have hgetD : st.data.getD y .undefined = .obj f p := by
    rw [List.getD_eq_getElem?_getD, hrow]; rfl
  refine ⟨{ st with data := st.data.set y (.obj (setOwn f (propKey keyV) v) p) }, ?_, ?_⟩
  · simp only [setValue, hcol, hgetD, setFieldE]
  · have htrig : isTrigger x y = false := by
      simp only [isTrigger, decide_eq_false_iff_not]
      rintro (h116 | h114)
      · omega
      · exact hx h114
    have hshift : shiftY y = y := by
      have h1 : (if 114 < y then y + 2 else y) = y := if_neg (by omega)
      simp only [shiftY, h1]
      exact if_neg (by omega)
    simp [getValue, htrig, hshift, List.getElem?_set_self hlen, hcol, truthy,
      jsGet_setOwn]

/-- Witness for C1 at a concrete input: one row, column name "a". -/
theorem c1_roundtrip_amended_witness :
    getColumnName stOne.schema (.name "a") = .ok (.str "a") ∧
    stOne.data[0]? = some (.obj [("a", .num 1)] .vnull) ∧
    (0 : Nat) ≤ 114 ∧ ¬((0 : Nat) = 114 ∧ ColRef.name "a" = ColRef.idx 2) ∧
    ∃ st', setValue stOne (.name "a") 0 (.num 7) = .ok st' ∧
      getValue st' (.name "a") 0 = (.ok (.num 7), st') :=
  ⟨rfl, rfl, by decide, by decide,
   c1_roundtrip_amended stOne (.name "a") 0 (.num 7) _ _ _ rfl rfl (by decide) (by decide)⟩

/-- Claim C4 counterexample: at row 114 the numeric reference to column 2
returns the sub-row aggregate while the equivalent column name returns the
plain cell value. -/
theorem c4_dual_addressing_cex :
    (getValue st117 (.idx 2) 114).1 ≠ (getValue st117 (.name "c") 114).1 := by
  have e1 : (getValue st117 (.idx 2) 114).1 =
      .ok (.arr [.num 3, .num 3, .num 3] true) := rfl
  have e2 : (getValue st117 (.name "c") 114).1 = .ok (.num 3) := rfl
  rw [e1, e2]
  intro h
  injection h with h1
  exact JSVal.noConfusion h1

/-- Claim C4 (amended): when schema index `i` resolves to the column name
`s`, `getValue` with the name and `getValue` with the index agree — results
and resulting states — at every row index except the sub-row trigger
position (row 114, column index 2). -/
theorem c4_dual_addressing_amended (st : DS) (y i : Nat) (s : String)
    (hcol : getColumnName st.schema (.idx i) = .ok (.str s))
    (hne : ¬(y = 114 ∧ i = 2)) :
    getValue st (.name s) y = getValue st (.idx i) y := by
  have hname : getColumnName st.schema (.name s) = .ok (.str s) := rfl
  have htrig_eq : isTrigger (ColRef.name s) y = isTrigger (ColRef.idx i) y := by
    simp only [isTrigger, decide_eq_decide]
    constructor
    · rintro (h | ⟨h1, h2⟩)
      · exact Or.inl h
      · exact ColRef.noConfusion h2
    · rintro (h | ⟨h1, h2⟩)
      · exact Or.inl h
      · injection h2 with h3
        exact absurd ⟨h1, h3⟩ hne
  unfold getValue
  rw [htrig_eq]
  cases h : isTrigger (ColRef.idx i) y <;> simp [h, hname, hcol]

/-- Witness for C4 at a concrete input: column index 1 / name "b" at row 0. -/
theorem c4_dual_addressing_amended_witness :
    getColumnName st117.schema (.idx 1) = .ok (.str "b") ∧
    ¬((0 : Nat) = 114 ∧ (1 : Nat) = 2) ∧
    getValue st117 (.name "b") 0 = getValue st117 (.idx 1) 0 :=
  ⟨rfl, by decide, c4_dual_addressing_amended st117 0 1 "b" rfl (by decide)⟩

/-- Claim C6 (confirmed): `delRow(y, count)` returns exactly the block of
`count` rows starting at `y` (clamped to what exists, empty for an
out-of-range start), removes it so that each subsequent row shifts `count`
positions earlier, leaves the schema alone, dispatches the shape-change
event exactly when at least one row came out, and an omitted count defaults
to 1. -/
theorem c6_delRow_spec (st : DS) (y c : Nat) :
    (delRow st y (some c)).1 = (st.data.drop y).take c ∧
    (delRow st y (some c)).2.data = st.data.take y ++ st.data.drop (y + c) ∧
    (delRow st y (some c)).2.data.drop y = st.data.drop (y + c) ∧
    (delRow st y (some c)).2.schema = st.schema ∧
    (getRowCount st ≤ y → (delRow st y (some c)).1 = []) ∧
    ((delRow st y (some c)).2.events =
      if ((delRow st y (some c)).1).isEmpty then st.events
      else st.events ++ ["fin-hypergrid-data-shape-changed"]) ∧
    delRow st y none = delRow st y (some 1) := by
  refine ⟨rfl, rfl, ?_, rfl, ?_, ?_, rfl⟩
  · show (st.data.take y ++ st.data.drop (y + c)).drop y = st.data.drop (y + c)
    by_cases hyl : y ≤ st.data.length
    · rw [List.drop_append_eq_append_drop,
        List.drop_eq_nil_of_le (le_of_eq (List.length_take_of_le hyl)),
        List.nil_append, List.length_take_of_le hyl, Nat.sub_self, List.drop_zero]
    · have hd : st.data.drop (y + c) = [] := List.drop_eq_nil_of_le (by omega)
      rw [hd, List.append_nil, List.take_of_length_le (by omega),
        List.drop_eq_nil_of_le (by omega)]
  · intro h
    show (st.data.drop y).take c = []
    rw [List.drop_eq_nil_of_le h, List.take_nil]
  · show (if ((st.data.drop y).take c).length ≠ 0 then
        st.events ++ ["fin-hypergrid-data-shape-changed"] else st.events) =
      if ((st.data.drop y).take c).isEmpty then st.events
      else st.events ++ ["fin-hypergrid-data-shape-changed"]
    by_cases he : (st.data.drop y).take c = []
    · rw [he]; rfl
    · have h1 : ((st.data.drop y).take c).length ≠ 0 := fun h0 =>
        he (List.eq_nil_of_length_eq_zero h0)
      have h2 : ¬(((st.data.drop y).take c).isEmpty = true) := by
        simp only [List.isEmpty_iff]
        exact he
      rw [if_pos h1, if_neg h2]

/-- Witness for C6 at a concrete input: deleting at an out-of-range start
index removes nothing. -/
theorem c6_delRow_spec_witness :
    getRowCount stOne ≤ 2 ∧ (delRow stOne 2 (some 1)).1 = [] :=
  ⟨by decide, (c6_delRow_spec stOne 2 1).2.2.2.2.1 (by decide)⟩

/-- Claim C7 counterexample: after clearing the metadata of an existing row,
`getRowMetadata` returns the boolean `false`, not `undefined`. -/
theorem c7_metadata_cex :
    (getRowMetadata (setRowMetadata stOne 0 .undefined).2 0 none).1 ≠ .ok .undefined := by
  have e : (getRowMetadata (setRowMetadata stOne 0 .undefined).2 0 none).1 =
      .ok (.bool false) := rfl
  rw [e]
  intro h
  injection h with h1
  exact JSVal.noConfusion h1

/-- Claim C7 (amended): on an existing object row (whose prototype chain
carries no metadata), setting a truthy metadata value and reading it back
returns that value; setting `undefined` deletes the attachment, after which
`getRowMetadata` returns the boolean `false` rather than `undefined`. -/
theorem c7_metadata_amended (st : DS) (y : Nat) (f : List (String × JSVal))
    (p : JSVal) (m : JSVal)
    (hrow : st.data[y]? = some (.obj f p))
    (hproto : truthy (jsGet p "__META") = false) :
    (truthy m = true →
      (getRowMetadata (setRowMetadata st y m).2 y none).1 = .ok m) ∧
    (getRowMetadata (setRowMetadata st y .undefined).2 y none).1 = .ok (.bool false) := by
  have hlen : y < st.data.length := by
    by_contra hc
    push_neg at hc
    rw [List.getElem?_eq_none hc] at hrow
    exact Option.noConfusion hrow
  have hgetD : st.data[y]?.getD JSVal.undefined = JSVal.obj f p := by
    rw [hrow]; rfl
  have htobj : ∀ (g : List (String × JSVal)) (q : JSVal), truthy (.obj g q) = true :=
    fun _ _ => rfl
  have htundef : truthy .undefined = false := rfl
  constructor
  · intro hm
    simp [setRowMetadata, getRowMetadata, hgetD, hm, setFieldE, htobj,
      List.getElem?_set_self hlen, jsGet_setOwn]
  · have hdel : jsGet (JSVal.obj (deleteOwn f "__META") p) "__META" =
        jsGet p "__META" := by
      simp [jsGet, lookupOwn_deleteOwn_self]
    simp [setRowMetadata, getRowMetadata, hgetD, deleteField, htobj, htundef,
      List.getElem?_set_self hlen, hdel, hproto]

/-- Witness for C7 at a concrete input: one row, metadata `{k: 5}`. -/
theorem c7_metadata_amended_witness :
    stOne.data[0]? = some (.obj [("a", .num 1)] .vnull) ∧
    truthy (jsGet .vnull "__META") = false ∧
    truthy (JSVal.obj [("k", .num 5)] .vnull) = true ∧
    (getRowMetadata (setRowMetadata stOne 0 (.obj [("k", .num 5)] .vnull)).2 0 none).1 =
      .ok (.obj [("k", .num 5)] .vnull) ∧
    (getRowMetadata (setRowMetadata stOne 0 .undefined).2 0 none).1 = .ok (.bool false) :=
  ⟨rfl, rfl, rfl,
   (c7_metadata_amended stOne 0 [("a", .num 1)] .vnull (.obj [("k", .num 5)] .vnull)
     rfl rfl).1 rfl,
   (c7_metadata_amended stOne 0 [("a", .num 1)] .vnull (.obj [("k", .num 5)] .vnull)
     rfl rfl).2⟩

/-- One `getValue` call either leaves the pending flag and the count of
scheduled callbacks unchanged, or — only when the flag was clear — sets the
flag and registers exactly one callback. -/
theorem getValue_sched_step (st : DS) (x : ColRef) (y : Nat) :
    ((getValue st x y).2.needsShapeChange = st.needsShapeChange ∧
     (getValue st x y).2.scheduled = st.scheduled) ∨
    (st.needsShapeChange = false ∧ (getValue st x y).2.needsShapeChange = true ∧
     (getValue st x y).2.scheduled = st.scheduled + 1) := by
  simp only [getValue]
  repeat' split
  all_goals first
    | (left; exact ⟨rfl, rfl⟩)
    | (rename_i h
       right
       refine ⟨?_, rfl, rfl⟩
       simpa using h)

/-- Across a whole render turn the flag/counter pair makes at most the one
transition of `getValue_sched_step`. -/
theorem renderPass_sched (calls : List (ColRef × Nat)) (st : DS) :
    ((renderPass st calls).needsShapeChange = st.needsShapeChange ∧
     (renderPass st calls).scheduled = st.scheduled) ∨
    (st.needsShapeChange = false ∧ (renderPass st calls).needsShapeChange = true ∧
     (renderPass st calls).scheduled = st.scheduled + 1) := by
  induction calls generalizing st with
  | nil => left; exact ⟨rfl, rfl⟩
  | cons c rest ih =>
      obtain ⟨x, y⟩ := c
      have hstep := getValue_sched_step st x y
      have hrest := ih (getValue st x y).2
      simp only [renderPass]
      rcases hrest with ⟨h1, h2⟩ | ⟨h1, h2, h3⟩ <;>
        rcases hstep with ⟨g1, g2⟩ | ⟨g1, g2, g3⟩
      · left; exact ⟨h1.trans g1, h2.trans g2⟩
      · right; exact ⟨g1, h1.trans g2, h2.trans g3⟩
      · right
        refine ⟨g1.symm.trans h1, h2, ?_⟩
        rw [h3, g2]
      · rw [g2] at h1
        exact absurd h1 (by simp)

/-- Claim C9 (confirmed): starting a render turn with the pending flag
clear, any sequence of `getValue` calls registers at most one deferred
`scheduleShapeChange` callback; exactly one is pending precisely when the
flag ended up set (so repeated sub-row trigger hits coalesce), and firing
the callback clears the flag — allowing a later render to schedule again —
while dispatching the deferred shape-change event. -/
theorem c9_coalescing (st : DS) (calls : List (ColRef × Nat))
    (h : st.needsShapeChange = false) :
    ((renderPass st calls).scheduled = st.scheduled ∨
     (renderPass st calls).scheduled = st.scheduled + 1) ∧
    ((renderPass st calls).needsShapeChange = true ↔
     (renderPass st calls).scheduled = st.scheduled + 1) ∧
    (scheduleShapeChange (renderPass st calls)).needsShapeChange = false ∧
    (scheduleShapeChange (renderPass st calls)).scheduled =
      (renderPass st calls).scheduled ∧
    (scheduleShapeChange (renderPass st calls)).events =
      (renderPass st calls).events ++ ["data-shape-changed"] := by
  rcases renderPass_sched calls st with ⟨h1, h2⟩ | ⟨h1, h2, h3⟩
  · refine ⟨Or.inl h2, ?_, rfl, rfl, rfl⟩
    rw [h1, h, h2]
    exact ⟨fun hh => absurd hh (by simp), fun hh => absurd hh (by omega)⟩
  · refine ⟨Or.inr h3, ?_, rfl, rfl, rfl⟩
    rw [h2, h3]
    simp

/-- Witness for C9 at a concrete input: two sub-row trigger hits at
(column 2, row 114) within one render schedule exactly one callback. -/
theorem c9_coalescing_witness :
    st117.needsShapeChange = false ∧
    (renderPass st117 [(.idx 2, 114), (.idx 2, 114)]).scheduled =
      st117.scheduled + 1 ∧
    (((renderPass st117 [(.idx 2, 114), (.idx 2, 114)]).scheduled = st117.scheduled ∨
      (renderPass st117 [(.idx 2, 114), (.idx 2, 114)]).scheduled = st117.scheduled + 1) ∧
     ((renderPass st117 [(.idx 2, 114), (.idx 2, 114)]).needsShapeChange = true ↔
      (renderPass st117 [(.idx 2, 114), (.idx 2, 114)]).scheduled = st117.scheduled + 1) ∧
     (scheduleShapeChange (renderPass st117 [(.idx 2, 114), (.idx 2, 114)])).needsShapeChange = false ∧
     (scheduleShapeChange (renderPass st117 [(.idx 2, 114), (.idx 2, 114)])).scheduled =
       (renderPass st117 [(.idx 2, 114), (.idx 2, 114)]).scheduled ∧
     (scheduleShapeChange (renderPass st117 [(.idx 2, 114), (.idx 2, 114)])).events =
       (renderPass st117 [(.idx 2, 114), (.idx 2, 114)]).events ++ ["data-shape-changed"]) :=
  ⟨rfl, rfl, c9_coalescing st117 [(.idx 2, 114), (.idx 2, 114)] rfl⟩

/-- A freshly created object is never the very object serving as its
prototype (no cyclic values exist). -/
theorem objCreate_ne_proto (g : List (String × JSVal)) (q : JSVal) :
    JSVal.obj [] (.obj g q) ≠ .obj g q := by
  intro h
  injection h with h1 h2
  subst h1
  have h3 := congrArg sizeOf h2
  simp at h3

/-- Projects the prototype out of an object value. -/
def jsProto : JSVal → JSVal
  | .obj _ p => p
  | _ => .undefined

/-- Claim C10 (confirmed): on an existing object row with no (truthy)
metadata attachment, `getRowMetadata(y)` with no fallback returns the
boolean `false` — falsy yet not `undefined` — while `getRowMetadata(y, fb)`
with an object fallback installs and returns a fresh object whose prototype
is `fb` but which is not `fb` itself. -/
theorem c10_getRowMetadata_default (st : DS) (y : Nat)
    (f g : List (String × JSVal)) (p q : JSVal)
    (hrow : st.data[y]? = some (.obj f p))
    (hmeta : truthy (jsGet (.obj f p) "__META") = false) :
    (getRowMetadata st y none).1 = .ok (.bool false) ∧
    truthy (.bool false) = false ∧ (JSVal.bool false) ≠ .undefined ∧
    (getRowMetadata st y (some (.obj g q))).1 = .ok (.obj [] (.obj g q)) ∧
    jsProto (.obj [] (.obj g q)) = .obj g q ∧
    (JSVal.obj [] (.obj g q)) ≠ .obj g q ∧
    (getRowMetadata st y (some (.obj g q))).2.data[y]? =
      some (.obj (setOwn f "__META" (.obj [] (.obj g q))) p) := by
  have hlen : y < st.data.length := by
    by_contra hc
    push_neg at hc
    rw [List.getElem?_eq_none hc] at hrow
    exact Option.noConfusion hrow
  have hgetD : st.data[y]?.getD JSVal.undefined = JSVal.obj f p := by
    rw [hrow]; rfl
  have htobj : ∀ (g' : List (String × JSVal)) (q' : JSVal),
      truthy (.obj g' q') = true := fun _ _ => rfl
  refine ⟨?_, rfl, fun hh => JSVal.noConfusion hh, ?_, rfl,
    objCreate_ne_proto g q, ?_⟩
  · simp [getRowMetadata, hgetD, hmeta, htobj]
  · simp [getRowMetadata, hgetD, hmeta, htobj, objCreate, setFieldE]
  · simp [getRowMetadata, hgetD, hmeta, htobj, objCreate, setFieldE,
      List.getElem?_set_self hlen]

/-- Witness for C10 at a concrete input: one metadata-free row, fallback
`{x: 9}`. -/
theorem c10_getRowMetadata_default_witness :
    stOne.data[0]? = some (.obj [("a", .num 1)] .vnull) ∧
    truthy (jsGet (.obj [("a", .num 1)] .vnull) "__META") = false ∧
    ((getRowMetadata stOne 0 none).1 = .ok (.bool false) ∧
     truthy (.bool false) = false ∧ (JSVal.bool false) ≠ .undefined ∧
     (getRowMetadata stOne 0 (some (.obj [("x", .num 9)] .vnull))).1 =
       .ok (.obj [] (.obj [("x", .num 9)] .vnull)) ∧
     jsProto (.obj [] (.obj [("x", .num 9)] .vnull)) = .obj [("x", .num 9)] .vnull ∧
     (JSVal.obj [] (.obj [("x", .num 9)] .vnull)) ≠ .obj [("x", .num 9)] .vnull ∧
     (getRowMetadata stOne 0 (some (.obj [("x", .num 9)] .vnull))).2.data[0]? =
       some (.obj (setOwn [("a", .num 1)] "__META"
         (.obj [] (.obj [("x", .num 9)] .vnull))) .vnull)) :=
  ⟨rfl, rfl,
   c10_getRowMetadata_default stOne 0 [("a", .num 1)] [("x", .num 9)] .vnull .vnull
     rfl rfl⟩
